/-
Verification of the "Anonymous Feedback Wall" repository.

The development shallowly embeds the client logic (slug generation, page
creation, feedback submission, the public submission view and the
feedback-review view) and the store's declarative row-level authorization
policies, and proves the testable properties stated in the specification.

Sources embedded:
  * generateSlug / handleTitleChange / createPage  (page-management view)
  * fetchPage / submitFeedback                     (public submission view)
  * fetchPageAndFeedback / ordinal rendering       (feedback-review view)
  * SQL schema constraints and row-level policies  (migration files)

JavaScript strings are modelled as Lean `String` (lists of characters);
`String.prototype.toLowerCase` is modelled by `Char.toLower`, its ASCII
fragment, which agrees with the source on every character that survives the
slug character filter.  Row identifiers and timestamps are modelled as `Nat`.
-/
import Mathlib

namespace AnonWalls

/-! ## Slug generation (page-management view, `generateSlug`) -/

/-- Code points matched by the JavaScript regular-expression class backslash-s
(whitespace), used both by the stripping step and by `trim`. -/
def isJsSpace (c : Char) : Bool :=
  decide (c.toNat = 32 ∨ c.toNat = 9 ∨ c.toNat = 10 ∨ c.toNat = 11 ∨
    c.toNat = 12 ∨ c.toNat = 13 ∨ c.toNat = 0xA0 ∨ c.toNat = 0x1680 ∨
    (0x2000 ≤ c.toNat ∧ c.toNat ≤ 0x200A) ∨ c.toNat = 0x2028 ∨
    c.toNat = 0x2029 ∨ c.toNat = 0x202F ∨ c.toNat = 0x205F ∨
    c.toNat = 0x3000 ∨ c.toNat = 0xFEFF)

/-- Characters kept by the stripping step, which deletes everything outside
the character class `a-z`, `0-9`, whitespace, hyphen. -/
def keepChar (c : Char) : Bool :=
  decide ((97 ≤ c.toNat ∧ c.toNat ≤ 122) ∨ (48 ≤ c.toNat ∧ c.toNat ≤ 57)) ||
    isJsSpace c || decide (c.toNat = 45)

/-- Character set of a well-formed slug: lowercase ASCII letters, ASCII
digits, and the hyphen. -/
def isSlugChar (c : Char) : Bool :=
  decide ((97 ≤ c.toNat ∧ c.toNat ≤ 122) ∨ (48 ≤ c.toNat ∧ c.toNat ≤ 57) ∨
    c.toNat = 45)

/-- Replace every maximal run of characters satisfying `p` by the single
character `r`: the global replacement of `X+` by `r` for a character
class `X`. -/
def squashRuns (p : Char → Bool) (r : Char) : List Char → List Char
  | [] => []
  | [c] => if p c then [r] else [c]
  | c1 :: c2 :: cs =>
    if p c1 && p c2 then squashRuns p r (c2 :: cs)
    else (if p c1 then r else c1) :: squashRuns p r (c2 :: cs)

/-- The list-level model of `String.prototype.trim`: drop whitespace from
both ends. -/
def jsTrimList (l : List Char) : List Char :=
  ((l.dropWhile isJsSpace).reverse.dropWhile isJsSpace).reverse

/-- Model of `String.prototype.trim`. -/
def jsTrim (s : String) : String :=
  String.mk (jsTrimList s.data)

/-- Model of `generateSlug` from the page-management view: lower-case the
title, delete every character outside `a-z`, `0-9`, whitespace, hyphen,
replace each whitespace run by a single hyphen, collapse hyphen runs, and
finally apply `trim`. -/
def generateSlug (title : String) : String :=
  String.mk (jsTrimList
    (squashRuns (fun c => c == '-') '-'
      (squashRuns isJsSpace '-'
        ((title.data.map Char.toLower).filter keepChar))))

/-! ## Data model (schema of the migration files)

Row identifiers, user identifiers and timestamps are modelled as `Nat`.
An unauthenticated caller is `Option.none`; an authenticated caller with
user id `u` is `some u`. -/

/-- A row of the `feedback_pages` table.  The schema gives `is_active` the
default `true`; `description` is the form's description string. -/
structure FeedbackPageRow where
  id : Nat
  user_id : Nat
  title : String
  description : String
  slug : String
  is_active : Bool
deriving DecidableEq

/-- A row of the `feedback` table (the columns the views use). -/
structure FeedbackRow where
  id : Nat
  message : String
  feedback_page_id : Nat
  created_at : Nat
deriving DecidableEq

/-! ## Row-level authorization policies (migration files)

Permissive policies for the same operation are disjoined, as the store
does.  `auth.uid() = user_id` is false for an anonymous caller. -/

/-- SELECT on `feedback_pages`: the owner-only policy `auth.uid() = user_id`
disjoined with the later policy named "Anyone can view active feedback
pages", `USING (is_active = true)`. -/
def pageSelectAllowed (uid : Option Nat) (row : FeedbackPageRow) : Bool :=
  uid == some row.user_id || row.is_active

/-- INSERT on `feedback_pages`: `WITH CHECK (auth.uid() = user_id)`. -/
def pageInsertAllowed (uid : Option Nat) (row : FeedbackPageRow) : Bool :=
  uid == some row.user_id

/-- UPDATE on `feedback_pages`: `USING (auth.uid() = user_id)`. -/
def pageUpdateAllowed (uid : Option Nat) (row : FeedbackPageRow) : Bool :=
  uid == some row.user_id

/-- DELETE on `feedback_pages`: `USING (auth.uid() = user_id)`. -/
def pageDeleteAllowed (uid : Option Nat) (row : FeedbackPageRow) : Bool :=
  uid == some row.user_id

/-- SELECT on `feedback`: the row's `feedback_page_id` must be the id of an
active page (`feedback_page_id IN (SELECT id FROM feedback_pages WHERE
is_active = true)`).  The policy does not mention the caller. -/
def feedbackSelectAllowed (pages : List FeedbackPageRow) (row : FeedbackRow) : Bool :=
  pages.any (fun p => p.id == row.feedback_page_id && p.is_active)

/-- INSERT on `feedback`: same predicate as the SELECT policy, as
`WITH CHECK`. -/
def feedbackInsertAllowed (pages : List FeedbackPageRow) (row : FeedbackRow) : Bool :=
  pages.any (fun p => p.id == row.feedback_page_id && p.is_active)

/-- INSERT into `feedback_pages` as executed by the store: the row-level
insert policy and the store-wide UNIQUE constraint on `slug` must both hold,
otherwise the statement fails and the table is unchanged. -/
def insertPage (uid : Option Nat) (pages : List FeedbackPageRow)
    (row : FeedbackPageRow) : Except Unit (List FeedbackPageRow) :=
  if !pageInsertAllowed uid row then .error ()
  else if pages.any (fun p => p.slug == row.slug) then .error ()
  else .ok (pages ++ [row])

/-- INSERT into `feedback` as executed by the store for an anonymous caller:
gated by the insert policy; a rejected insert leaves the table unchanged. -/
def insertFeedback (pages : List FeedbackPageRow) (fb : List FeedbackRow)
    (row : FeedbackRow) : Except Unit (List FeedbackRow) :=
  if feedbackInsertAllowed pages row then .ok (fb ++ [row]) else .error ()

/-! ## Page-management view: `handleTitleChange` and `createPage` -/

/-- The create-page form state. -/
structure FormData where
  title : String
  description : String
  slug : String
deriving DecidableEq

/-- The form state after a successful create: all fields reset. -/
def emptyForm : FormData := ⟨"", "", ""⟩

/-- The `handleTitleChange` handler: store the typed title and re-derive the
slug from it. -/
def handleTitleChange (form : FormData) (title : String) : FormData :=
  { form with title := title, slug := generateSlug title }

/-- The row `createPage` sends to the store: the raw form fields plus the
caller's user id; `id` and `is_active` come from the schema defaults. -/
def newPageRow (uid freshId : Nat) (form : FormData) : FeedbackPageRow :=
  { id := freshId, user_id := uid, title := form.title,
    description := form.description, slug := form.slug, is_active := true }

/-- Outcome of `createPage` as observable by the user. -/
inductive CreateOutcome where
  | validationError
  | storeError
  | success
deriving DecidableEq

/-- The `createPage` handler: if the trimmed title is empty, surface a
validation toast and stop before any store request; otherwise attempt the
insert.  Returns the outcome, the resulting `feedback_pages` table, and the
resulting form state (reset only on success). -/
def createPage (uid freshId : Nat) (pages : List FeedbackPageRow)
    (form : FormData) : CreateOutcome × List FeedbackPageRow × FormData :=
  if jsTrim form.title = "" then (.validationError, pages, form)
  else
    match insertPage (some uid) pages (newPageRow uid freshId form) with
    | .error _ => (.storeError, pages, form)
    | .ok ps => (.success, ps, emptyForm)

/-! ## Public submission view: `fetchPage` and `submitFeedback` -/

/-- Semantics of `.single()`: a result row only when the query returned
exactly one row, an error (caught by the views, leaving no page set)
otherwise. -/
def singleRow {α : Type} : List α → Option α
  | [r] => some r
  | _ => none

/-- The query of `fetchPage`: among the rows the anonymous caller may see
(row policy), keep those with the route's slug and `is_active = true`, and
apply `.single()`, which succeeds only on exactly one row. -/
def fetchPage (pages : List FeedbackPageRow) (slg : String) :
    Option FeedbackPageRow :=
  singleRow ((pages.filter (fun p => pageSelectAllowed none p)).filter
    (fun p => p.slug == slg && p.is_active))

/-- What the public submission view renders. -/
inductive PublicView where
  | notFound
  | form (page : FeedbackPageRow)
deriving DecidableEq

/-- The public submission view: the not-found state when `fetchPage` yields
no row, otherwise the submission form for the fetched page. -/
def publicFeedbackView (pages : List FeedbackPageRow) (slg : String) :
    PublicView :=
  match fetchPage pages slg with
  | none => .notFound
  | some p => .form p

/-- Outcome of `submitFeedback` as observable by the user. -/
inductive SubmitOutcome where
  | validationError
  | storeError
  | success
deriving DecidableEq

/-- The `submitFeedback` handler of the public submission view (reachable
only once a page has been fetched): if the trimmed message is empty, surface
a validation toast and stop before any store request; otherwise insert the
trimmed message against the fetched page's id.  Returns the outcome, the
resulting `feedback` table, and the resulting message field (never cleared
by this handler). -/
def submitFeedback (pages : List FeedbackPageRow) (page : FeedbackPageRow)
    (fb : List FeedbackRow) (freshId createdAt : Nat) (message : String) :
    SubmitOutcome × List FeedbackRow × String :=
  if jsTrim message = "" then (.validationError, fb, message)
  else
    match insertFeedback pages fb
        ⟨freshId, jsTrim message, page.id, createdAt⟩ with
    | .error _ => (.storeError, fb, message)
    | .ok l => (.success, l, message)

/-! ## Feedback-review view: `fetchPageAndFeedback` and the ordinal labels -/

/-- The page query of `fetchPageAndFeedback`: among the rows the
authenticated caller may see (row policy), keep those with the route's page
id and the caller's own user id, and apply `.single()`. -/
def fetchOwnedPage (pages : List FeedbackPageRow) (uid pid : Nat) :
    Option FeedbackPageRow :=
  singleRow ((pages.filter (fun p => pageSelectAllowed (some uid) p)).filter
    (fun p => p.id == pid && p.user_id == uid))

/-- What the feedback-review view does after the page fetch: on zero rows it
shows an error toast and navigates back to the page-management view,
otherwise it renders the owned page. -/
inductive ReviewView where
  | errorRedirect
  | renders (page : FeedbackPageRow)
deriving DecidableEq

/-- The feedback-review view's reaction to the page fetch. -/
def viewFeedbackView (pages : List FeedbackPageRow) (uid pid : Nat) :
    ReviewView :=
  match fetchOwnedPage pages uid pid with
  | none => .errorRedirect
  | some p => .renders p

/-- Descending insertion by `created_at`, the order step of the feedback
query (`order by created_at, ascending false`). -/
def insertDesc (x : FeedbackRow) : List FeedbackRow → List FeedbackRow
  | [] => [x]
  | y :: ys =>
    if y.created_at ≤ x.created_at then x :: y :: ys else y :: insertDesc x ys

/-- Sort a feedback list by `created_at` descending. -/
def sortDesc : List FeedbackRow → List FeedbackRow
  | [] => []
  | x :: xs => insertDesc x (sortDesc xs)

/-- The feedback query of `fetchPageAndFeedback`: rows visible under the
select policy, filtered to the page id, ordered by creation time
descending. -/
def fetchFeedback (pages : List FeedbackPageRow) (db : List FeedbackRow)
    (pid : Nat) : List FeedbackRow :=
  sortDesc (db.filter
    (fun f => feedbackSelectAllowed pages f && f.feedback_page_id == pid))

/-- The rendering loop `feedback.map((item, index) => ...)` labelling the
item at `index` with `feedback.length - index`: `i` is the current index,
`total` the length of the whole list. -/
def renderFrom (total : Nat) : Nat → List FeedbackRow → List (Nat × FeedbackRow)
  | _, [] => []
  | i, x :: xs => (total - i, x) :: renderFrom total (i + 1) xs

/-- The rendered feedback list: each item paired with its ordinal label
`feedback.length - index`. -/
def renderFeedbackList (fb : List FeedbackRow) : List (Nat × FeedbackRow) :=
  renderFrom fb.length 0 fb

/-- Specification-side description of the ordinal labels: `countdown n` is
the list `n, n-1, ..., 1`, so of `N` total items the most recent (first)
is labelled `N` and the earliest (last) is labelled `1`. -/
def countdown : Nat → List Nat
  | 0 => []
  | n + 1 => (n + 1) :: countdown n

/-- Holds when no two adjacent characters of the list both satisfy `p`;
the shape of a list in which every `p`-run has already been collapsed. -/
def noAdjPairs (p : Char → Bool) : List Char → Bool
  | c1 :: c2 :: cs => !(p c1 && p c2) && noAdjPairs p (c2 :: cs)
  | _ => true

/-- The order of the feedback-review list: `a` precedes `b` when `b` was
created no later than `a` (creation time descending). -/
def createdDesc (a b : FeedbackRow) : Prop :=
  b.created_at ≤ a.created_at

/-! ## Character-level lemmas -/

lemma keepChar_of_isSlugChar {c : Char} (h : isSlugChar c = true) :
    keepChar c = true := by
  simp only [isSlugChar, decide_eq_true_eq] at h
  simp only [keepChar, isJsSpace, Bool.or_eq_true, decide_eq_true_eq]
  omega

lemma not_isJsSpace_of_isSlugChar {c : Char} (h : isSlugChar c = true) :
    isJsSpace c = false := by
  simp only [isSlugChar, decide_eq_true_eq] at h
  simp only [isJsSpace, decide_eq_false_iff_not]
  omega

lemma isSlugChar_of_keepChar {c : Char} (hk : keepChar c = true)
    (hs : isJsSpace c = false) : isSlugChar c = true := by
  simp only [keepChar, isJsSpace, Bool.or_eq_true, decide_eq_true_eq] at hk
  simp only [isJsSpace, decide_eq_false_iff_not] at hs
  simp only [isSlugChar, decide_eq_true_eq]
  omega

lemma toLower_eq_self_of_isSlugChar {c : Char} (h : isSlugChar c = true) :
    Char.toLower c = c := by
  simp only [isSlugChar, decide_eq_true_eq] at h
  unfold Char.toLower
  rw [if_neg]
  omega

/-! ## Lemmas about `squashRuns` and `jsTrimList` -/

lemma mem_squashRuns (p : Char → Bool) (r : Char) :
    ∀ (l : List Char) (c : Char), c ∈ squashRuns p r l →
      c = r ∨ (c ∈ l ∧ p c = false)
  | [], c, h => by simp [squashRuns] at h
  | [a], c, h => by
    by_cases hpa : p a = true
    · simp [squashRuns, hpa] at h
      exact Or.inl h
    · simp only [Bool.not_eq_true] at hpa
      simp [squashRuns, hpa] at h
      exact Or.inr ⟨by simp [h], by rw [h]; exact hpa⟩
  | a :: b :: l, c, h => by
    by_cases hab : (p a && p b) = true
    · simp only [squashRuns, hab, if_true] at h
      rcases mem_squashRuns p r (b :: l) c h with h1 | ⟨h2, h3⟩
      · exact Or.inl h1
      · exact Or.inr ⟨List.mem_cons_of_mem _ h2, h3⟩
    · simp only [Bool.not_eq_true] at hab
      simp only [squashRuns, hab] at h
      rw [if_neg (by simp)] at h
      rcases List.mem_cons.mp h with h1 | h2
      · by_cases hpa : p a = true
        · rw [if_pos hpa] at h1
          exact Or.inl h1
        · simp only [Bool.not_eq_true] at hpa
          rw [if_neg (by simp [hpa])] at h1
          exact Or.inr ⟨by simp [h1], by rw [h1]; exact hpa⟩
      · rcases mem_squashRuns p r (b :: l) c h2 with h3 | ⟨h4, h5⟩
        · exact Or.inl h3
        · exact Or.inr ⟨List.mem_cons_of_mem _ h4, h5⟩

lemma head_squashRuns (p : Char → Bool) (r : Char) :
    ∀ (a : Char) (l : List Char),
      (squashRuns p r (a :: l)).head? = some (if p a then r else a)
  | a, [] => by
    by_cases hpa : p a = true <;> simp [squashRuns, hpa]
  | a, b :: l => by
    by_cases hab : (p a && p b) = true
    · have h' : p a = true ∧ p b = true := by
        rw [Bool.and_eq_true] at hab; exact hab
      rw [show squashRuns p r (a :: b :: l) = squashRuns p r (b :: l) by
        simp [squashRuns, hab]]
      rw [head_squashRuns p r b l]
      simp [h'.1, h'.2]
    · simp only [Bool.not_eq_true] at hab
      simp only [squashRuns, hab]
      rw [if_neg (by simp)]
      simp

lemma noAdjPairs_squashRuns (p : Char → Bool) (r : Char) (hr : p r = true) :
    ∀ l : List Char, noAdjPairs p (squashRuns p r l) = true
  | [] => rfl
  | [a] => by
    by_cases hpa : p a = true <;>
      simp [squashRuns, hpa, noAdjPairs]
  | a :: b :: l => by
    by_cases hab : (p a && p b) = true
    · rw [show squashRuns p r (a :: b :: l) = squashRuns p r (b :: l) by
        simp [squashRuns, hab]]
      exact noAdjPairs_squashRuns p r hr (b :: l)
    · simp only [Bool.not_eq_true] at hab
      have hsq' : squashRuns p r (a :: b :: l)
          = (if p a then r else a) :: squashRuns p r (b :: l) := by
        simp only [squashRuns, hab]
        rw [if_neg (by simp)]
      have hrest := noAdjPairs_squashRuns p r hr (b :: l)
      cases hsq : squashRuns p r (b :: l) with
      | nil => rw [hsq', hsq]; simp [noAdjPairs]
      | cons y ys =>
        have hy : y = if p b then r else b := by
          have hh := head_squashRuns p r b l
          rw [hsq] at hh
          simpa using hh
        rw [hsq] at hrest
        have hpxy : (p (if p a then r else a) && p y) = false := by
          by_cases hpa : p a = true
          · have hpb : p b = false := by
              cases hpb' : p b with
              | false => rfl
              | true => rw [hpa, hpb'] at hab; simp at hab
            rw [if_pos hpa, hy, if_neg (by simp [hpb]), hr]
            simp [hpb]
          · simp only [Bool.not_eq_true] at hpa
            rw [if_neg (by simp [hpa]), hpa]
            simp
        rw [hsq', hsq]
        simp [noAdjPairs, hpxy, hrest]

lemma squashRuns_eq_self_of_none (p : Char → Bool) (r : Char) :
    ∀ l : List Char, (∀ c ∈ l, p c = false) → squashRuns p r l = l
  | [], _ => rfl
  | [a], h => by simp [squashRuns, h a (List.mem_singleton_self a)]
  | a :: b :: l, h => by
    have ha := h a (List.mem_cons_self _ _)
    have hb := h b (List.mem_cons_of_mem _ (List.mem_cons_self _ _))
    simp only [squashRuns, ha, hb, Bool.false_and]
    rw [if_neg (by simp), if_neg (by simp [ha])]
    exact congrArg (a :: ·)
      (squashRuns_eq_self_of_none p r (b :: l)
        (fun c hc => h c (List.mem_cons_of_mem _ hc)))

lemma squashRuns_eq_self (p : Char → Bool) (r : Char) :
    ∀ l : List Char, (∀ c ∈ l, p c = true → c = r) →
      noAdjPairs p l = true → squashRuns p r l = l
  | [], _, _ => rfl
  | [a], h, _ => by
    by_cases hpa : p a = true
    · simp [squashRuns, hpa, (h a (List.mem_singleton_self a) hpa)]
    · simp only [Bool.not_eq_true] at hpa
      simp [squashRuns, hpa]
  | a :: b :: l, h, hadj => by
    simp only [noAdjPairs, Bool.and_eq_true, Bool.not_eq_true'] at hadj
    obtain ⟨hab, hadj'⟩ := hadj
    simp only [squashRuns, hab]
    rw [if_neg (by simp)]
    have hhd : (if p a then r else a) = a := by
      by_cases hpa : p a = true
      · rw [if_pos hpa, (h a (List.mem_cons_self _ _) hpa)]
      · simp only [Bool.not_eq_true] at hpa
        rw [if_neg (by simp [hpa])]
    rw [hhd]
    exact congrArg (a :: ·)
      (squashRuns_eq_self p r (b :: l)
        (fun c hc hp => h c (List.mem_cons_of_mem _ hc) hp)
        (by simpa [noAdjPairs] using hadj'))

lemma dropWhile_eq_self_of_none {p : Char → Bool} {l : List Char}
    (h : ∀ c ∈ l, p c = false) : l.dropWhile p = l := by
  cases l with
  | nil => rfl
  | cons a l => simp [List.dropWhile_cons, h a (List.mem_cons_self _ _)]

lemma jsTrimList_eq_self {l : List Char}
    (h : ∀ c ∈ l, isJsSpace c = false) : jsTrimList l = l := by
  unfold jsTrimList
  rw [dropWhile_eq_self_of_none h,
    dropWhile_eq_self_of_none (fun c hc => h c (List.mem_reverse.mp hc)),
    List.reverse_reverse]

/-! ## Lemmas about `generateSlug` -/

lemma mem_slugCore {s : String} {c : Char}
    (h : c ∈ squashRuns (fun c => c == '-') '-'
      (squashRuns isJsSpace '-' ((s.data.map Char.toLower).filter keepChar))) :
    isSlugChar c = true := by
  rcases mem_squashRuns _ _ _ _ h with rfl | ⟨h2, _⟩
  · decide
  · rcases mem_squashRuns _ _ _ _ h2 with rfl | ⟨h4, h5⟩
    · decide
    · exact isSlugChar_of_keepChar (List.mem_filter.mp h4).2 h5

lemma generateSlug_data (s : String) :
    (generateSlug s).data = squashRuns (fun c => c == '-') '-'
      (squashRuns isJsSpace '-' ((s.data.map Char.toLower).filter keepChar)) := by
  show jsTrimList _ = _
  exact jsTrimList_eq_self
    (fun c hc => not_isJsSpace_of_isSlugChar (mem_slugCore hc))

lemma generateSlug_chars (s : String) :
    ∀ c ∈ (generateSlug s).data, isSlugChar c = true := by
  rw [generateSlug_data]
  exact fun _ hc => mem_slugCore hc

lemma generateSlug_noAdj (s : String) :
    noAdjPairs (fun c => c == '-') (generateSlug s).data = true := by
  rw [generateSlug_data]
  exact noAdjPairs_squashRuns _ '-' (by decide) _

lemma generateSlug_idem (s : String) :
    generateSlug (generateSlug s) = generateSlug s := by
  have hchars := generateSlug_chars s
  have h1 : (generateSlug s).data.map Char.toLower = (generateSlug s).data := by
    rw [List.map_congr_left
      (fun a ha => toLower_eq_self_of_isSlugChar (hchars a ha))]
    exact List.map_id _
  have h2 : (generateSlug s).data.filter keepChar = (generateSlug s).data :=
    List.filter_eq_self.mpr (fun a ha => keepChar_of_isSlugChar (hchars a ha))
  have h3 : squashRuns isJsSpace '-' (generateSlug s).data
      = (generateSlug s).data :=
    squashRuns_eq_self_of_none _ _ _
      (fun c hc => not_isJsSpace_of_isSlugChar (hchars c hc))
  have h4 : squashRuns (fun c => c == '-') '-' (generateSlug s).data
      = (generateSlug s).data :=
    squashRuns_eq_self _ _ _
      (fun c _ hp => by simpa using hp)
      (generateSlug_noAdj s)
  have h5 : jsTrimList (generateSlug s).data = (generateSlug s).data :=
    jsTrimList_eq_self
      (fun c hc => not_isJsSpace_of_isSlugChar (hchars c hc))
  show String.mk _ = _
  rw [h1, h2, h3, h4, h5]

/-! ## Lemmas about sorting and the ordinal labels -/

lemma mem_insertDesc {z x : FeedbackRow} :
    ∀ {l : List FeedbackRow}, z ∈ insertDesc x l → z = x ∨ z ∈ l
  | [], h => by
    simp [insertDesc] at h
    exact Or.inl h
  | y :: ys, h => by
    by_cases hc : y.created_at ≤ x.created_at
    · simp only [insertDesc, if_pos hc] at h
      simpa using h
    · simp only [insertDesc, if_neg hc] at h
      rcases List.mem_cons.mp h with h1 | h2
      · exact Or.inr (h1 ▸ List.mem_cons_self _ _)
      · rcases mem_insertDesc h2 with h3 | h4
        · exact Or.inl h3
        · exact Or.inr (List.mem_cons_of_mem _ h4)

lemma sorted_insertDesc {x : FeedbackRow} :
    ∀ {l : List FeedbackRow}, l.Sorted createdDesc →
      (insertDesc x l).Sorted createdDesc
  | [], _ => by simp [insertDesc]
  | y :: ys, h => by
    rw [List.sorted_cons] at h
    obtain ⟨hy, hys⟩ := h
    by_cases hc : y.created_at ≤ x.created_at
    · simp only [insertDesc, if_pos hc]
      rw [List.sorted_cons]
      refine ⟨?_, ?_⟩
      · intro b hb
        rcases List.mem_cons.mp hb with rfl | hb'
        · exact hc
        · exact le_trans (hy b hb') hc
      · rw [List.sorted_cons]
        exact ⟨hy, hys⟩
    · simp only [insertDesc, if_neg hc]
      rw [List.sorted_cons]
      refine ⟨?_, sorted_insertDesc hys⟩
      intro b hb
      rcases mem_insertDesc hb with rfl | hb'
      · exact Nat.le_of_not_le hc
      · exact hy b hb'

lemma sorted_sortDesc : ∀ l : List FeedbackRow, (sortDesc l).Sorted createdDesc
  | [] => List.sorted_nil
  | x :: xs => sorted_insertDesc (sorted_sortDesc xs)

lemma mem_sortDesc {z : FeedbackRow} :
    ∀ {l : List FeedbackRow}, z ∈ sortDesc l → z ∈ l
  | [], h => by simpa [sortDesc] using h
  | x :: xs, h => by
    simp only [sortDesc] at h
    rcases mem_insertDesc h with rfl | h2
    · exact List.mem_cons_self _ _
    · exact List.mem_cons_of_mem _ (mem_sortDesc h2)

lemma renderFrom_labels :
    ∀ (l : List FeedbackRow) (i total : Nat), i + l.length = total →
      (renderFrom total i l).map Prod.fst = countdown l.length
  | [], _, _, _ => rfl
  | x :: xs, i, total, h => by
    have h1 : total - i = xs.length + 1 := by
      simp only [List.length_cons] at h
      omega
    simp only [renderFrom, List.map_cons, List.length_cons, countdown]
    rw [h1]
    exact congrArg _ (renderFrom_labels xs (i + 1) total
      (by simp only [List.length_cons] at h; omega))

lemma countdown_getLast : ∀ n : Nat, 0 < n → (countdown n).getLast? = some 1
  | 1, _ => rfl
  | n + 2, _ => by
    show ((n + 2) :: countdown (n + 1)).getLast? = some 1
    rw [show countdown (n + 1) = (n + 1) :: countdown n from rfl,
      List.getLast?_cons_cons]
    exact countdown_getLast (n + 1) (Nat.succ_pos n)

lemma countdown_head (n : Nat) (h : 0 < n) : (countdown n).head? = some n := by
  cases n with
  | zero => omega
  | succ m => rfl

/-! ## Lemmas about the single-row fetches -/

lemma singleRow_eq_some {α : Type} : ∀ {l : List α} {r : α},
    singleRow l = some r → l = [r]
  | [], _, h => by simp [singleRow] at h
  | [x], r, h => by
    simp only [singleRow, Option.some.injEq] at h
    rw [h]
  | _ :: _ :: _, _, h => by simp [singleRow] at h

lemma fetchPage_eq_some {pages : List FeedbackPageRow} {slg : String}
    {r : FeedbackPageRow} (h : fetchPage pages slg = some r) :
    r ∈ pages ∧ r.slug = slg ∧ r.is_active = true := by
  have hl := singleRow_eq_some h
  have hr : r ∈ (pages.filter (fun p => pageSelectAllowed none p)).filter
      (fun p => p.slug == slg && p.is_active) := by
    rw [hl]
    exact List.mem_singleton_self r
  have h1 := List.mem_filter.mp hr
  have h2 := List.mem_filter.mp h1.1
  have h3 : r.slug = slg ∧ r.is_active = true := by
    have := h1.2
    simp only [Bool.and_eq_true, beq_iff_eq] at this
    exact this
  exact ⟨h2.1, h3⟩

lemma fetchPage_eq_none {pages : List FeedbackPageRow} {slg : String}
    (h : ∀ p ∈ pages, p.slug = slg → p.is_active = false) :
    fetchPage pages slg = none := by
  unfold fetchPage
  rw [show (pages.filter (fun p => pageSelectAllowed none p)).filter
      (fun p => p.slug == slg && p.is_active) = [] from ?_]
  · rfl
  · rw [List.filter_eq_nil_iff]
    intro a ha
    have ha' := (List.mem_filter.mp ha).1
    simp only [Bool.and_eq_true, beq_iff_eq, not_and]
    intro hslug
    rw [h a ha' hslug]
    simp

lemma fetchOwnedPage_eq_some {pages : List FeedbackPageRow} {uid pid : Nat}
    {r : FeedbackPageRow} (h : fetchOwnedPage pages uid pid = some r) :
    r ∈ pages ∧ r.id = pid ∧ r.user_id = uid := by
  have hl := singleRow_eq_some h
  have hr : r ∈ (pages.filter (fun p => pageSelectAllowed (some uid) p)).filter
      (fun p => p.id == pid && p.user_id == uid) := by
    rw [hl]
    exact List.mem_singleton_self r
  have h1 := List.mem_filter.mp hr
  have h2 := List.mem_filter.mp h1.1
  have h3 : r.id = pid ∧ r.user_id = uid := by
    have := h1.2
    simp only [Bool.and_eq_true, beq_iff_eq] at this
    exact this
  exact ⟨h2.1, h3⟩

lemma fetchOwnedPage_eq_none {pages : List FeedbackPageRow} {uid pid : Nat}
    (h : ∀ p ∈ pages, ¬(p.id = pid ∧ p.user_id = uid)) :
    fetchOwnedPage pages uid pid = none := by
  unfold fetchOwnedPage
  rw [show (pages.filter (fun p => pageSelectAllowed (some uid) p)).filter
      (fun p => p.id == pid && p.user_id == uid) = [] from ?_]
  · rfl
  · rw [List.filter_eq_nil_iff]
    intro a ha
    have ha' := (List.mem_filter.mp ha).1
    simp only [Bool.and_eq_true, beq_iff_eq]
    exact h a ha'

/-! ## Lemmas about the page insert -/

lemma insertPage_ok {uid : Option Nat} {pages l : List FeedbackPageRow}
    {row : FeedbackPageRow} (h : insertPage uid pages row = .ok l) :
    l = pages ++ [row] ∧ ∀ p ∈ pages, p.slug ≠ row.slug := by
  unfold insertPage at h
  by_cases h1 : (!pageInsertAllowed uid row) = true
  · rw [if_pos h1] at h
    simp at h
  · rw [if_neg h1] at h
    by_cases h2 : pages.any (fun p => p.slug == row.slug) = true
    · rw [if_pos h2] at h
      simp at h
    · rw [if_neg h2] at h
      simp only [Except.ok.injEq] at h
      refine ⟨h.symm, ?_⟩
      intro p hp
      rw [Bool.not_eq_true, List.any_eq_false] at h2
      have := h2 p hp
      simpa using this

lemma insertPage_collision {uid : Option Nat} {pages : List FeedbackPageRow}
    {row : FeedbackPageRow} (h : ∃ p ∈ pages, p.slug = row.slug) :
    insertPage uid pages row = .error () := by
  unfold insertPage
  by_cases h1 : (!pageInsertAllowed uid row) = true
  · rw [if_pos h1]
  · rw [if_neg h1, if_pos ?_]
    rw [List.any_eq_true]
    obtain ⟨p, hp, hs⟩ := h
    exact ⟨p, hp, by simp [hs]⟩

/-! ## Claim theorems -/

/-- C1 (counterexample): the claim's second example fails on the code.
`generateSlug "  multiple   spaces -- here "` evaluates to
`"-multiple-spaces-here-"`, not `"multiple-spaces-here"`: the final `trim`
removes only whitespace, but by then every whitespace run has already been
replaced by a hyphen, so the leading and trailing hyphens survive. -/
theorem generateSlug_spec_example_fails :
    generateSlug "  multiple   spaces -- here " = "-multiple-spaces-here-" ∧
    generateSlug "  multiple   spaces -- here " ≠ "multiple-spaces-here" := by
  constructor
  · decide
  · decide

/-- C1 (amended): `generateSlug` is deterministic (it is a pure function of
its argument) and idempotent, and derives by lower-casing, stripping
characters outside letters, digits, whitespace and hyphens, collapsing
whitespace runs to single hyphens and collapsing hyphen runs; the final
trim removes only whitespace — already replaced by hyphens — so boundary
hyphens are retained: `derive("My Cool Page!") = "my-cool-page"` but
`derive("  multiple   spaces -- here ") = "-multiple-spaces-here-"`. -/
theorem generateSlug_deterministic_idempotent :
    (∀ s : String, generateSlug (generateSlug s) = generateSlug s) ∧
    generateSlug "My Cool Page!" = "my-cool-page" ∧
    generateSlug "  multiple   spaces -- here " = "-multiple-spaces-here-" :=
  ⟨generateSlug_idem, by decide, by decide⟩

/-- C8: every character of `generateSlug s` is a lowercase ASCII letter
(code 97–122), an ASCII digit (code 48–57) or a hyphen (code 45) — never
whitespace, an uppercase letter, or any other character. -/
theorem generateSlug_charset (s : String) :
    ∀ c ∈ (generateSlug s).data,
      (97 ≤ c.toNat ∧ c.toNat ≤ 122) ∨ (48 ≤ c.toNat ∧ c.toNat ≤ 57) ∨
        c.toNat = 45 := by
  intro c hc
  have h := generateSlug_chars s c hc
  simpa [isSlugChar, decide_eq_true_eq] using h

/-- C8 (witness): the character set theorem applied to a concrete input. -/
theorem generateSlug_charset_witness :
    'm' ∈ (generateSlug "My Cool Page!").data ∧
    ((97 ≤ 'm'.toNat ∧ 'm'.toNat ≤ 122) ∨ (48 ≤ 'm'.toNat ∧ 'm'.toNat ≤ 57) ∨
      'm'.toNat = 45) :=
  ⟨by decide, generateSlug_charset "My Cool Page!" 'm' (by decide)⟩

/-- C2 (counterexample): the claim that caller A is denied any read of a
page owned by a different caller B fails: the policy named "Anyone can view
active feedback pages" grants SELECT on any active row, so caller 1 may
read an active page owned by caller 2. -/
theorem cross_owner_read_allowed_counterexample :
    (1 : Nat) ≠ 2 ∧
    ((⟨7, 2, "B page", "", "b-page", true⟩ : FeedbackPageRow)).is_active
      = true ∧
    pageSelectAllowed (some 1)
      (⟨7, 2, "B page", "", "b-page", true⟩ : FeedbackPageRow) = true := by
  refine ⟨by decide, rfl, by decide⟩

/-- C2 (amended): for an authenticated caller `a` and a page row owned by a
different caller, the row policies deny every mutation (insert-as-owner,
update, delete), and deny read exactly when the row is not active: the
owner-only read exception of the spec's own access table applies when
`is_active = true`. -/
theorem cross_owner_mutations_denied (a : Nat) (row : FeedbackPageRow)
    (h : a ≠ row.user_id) :
    pageInsertAllowed (some a) row = false ∧
    pageUpdateAllowed (some a) row = false ∧
    pageDeleteAllowed (some a) row = false ∧
    (row.is_active = false → pageSelectAllowed (some a) row = false) := by
  have hne : (some a == some row.user_id) = false := by
    simp only [beq_eq_false_iff_ne, ne_eq, Option.some.injEq]
    exact h
  refine ⟨hne, hne, hne, ?_⟩
  intro hact
  simp only [pageSelectAllowed, hne, hact, Bool.or_self]

/-- C2 (witness): the amended theorem applied to caller 1 and an inactive
page owned by caller 2. -/
theorem cross_owner_mutations_denied_witness :
    (1 : Nat) ≠ ((⟨7, 2, "B page", "", "b-page", false⟩ : FeedbackPageRow)).user_id ∧
    pageInsertAllowed (some 1)
      (⟨7, 2, "B page", "", "b-page", false⟩ : FeedbackPageRow) = false ∧
    pageUpdateAllowed (some 1)
      (⟨7, 2, "B page", "", "b-page", false⟩ : FeedbackPageRow) = false ∧
    pageDeleteAllowed (some 1)
      (⟨7, 2, "B page", "", "b-page", false⟩ : FeedbackPageRow) = false ∧
    pageSelectAllowed (some 1)
      (⟨7, 2, "B page", "", "b-page", false⟩ : FeedbackPageRow) = false := by
  have h := cross_owner_mutations_denied 1
    (⟨7, 2, "B page", "", "b-page", false⟩ : FeedbackPageRow) (by decide)
  exact ⟨by decide, h.1, h.2.1, h.2.2.1, h.2.2.2 rfl⟩

/-- C3: the feedback-review list is ordered by creation time descending and
contains only rows of the requested page; the rendered ordinal labels are
`total_count - index` for zero-based index, i.e. the list `N, N-1, ..., 1`
for `N` total items, so when the list is non-empty the most recent (first)
item is labelled `N` and the earliest (last) item is labelled `1`. -/
theorem review_order_and_labels (pages : List FeedbackPageRow)
    (db : List FeedbackRow) (pid : Nat) :
    (fetchFeedback pages db pid).Sorted createdDesc ∧
    (∀ f ∈ fetchFeedback pages db pid, f.feedback_page_id = pid) ∧
    (renderFeedbackList (fetchFeedback pages db pid)).map Prod.fst
      = countdown (fetchFeedback pages db pid).length ∧
    (0 < (fetchFeedback pages db pid).length →
      ((renderFeedbackList (fetchFeedback pages db pid)).map Prod.fst).head?
          = some (fetchFeedback pages db pid).length ∧
      ((renderFeedbackList (fetchFeedback pages db pid)).map Prod.fst).getLast?
          = some 1) := by
  have hlab : (renderFeedbackList (fetchFeedback pages db pid)).map Prod.fst
      = countdown (fetchFeedback pages db pid).length :=
    renderFrom_labels (fetchFeedback pages db pid) 0 _ (Nat.zero_add _)
  refine ⟨sorted_sortDesc _, ?_, hlab, ?_⟩
  · intro f hf
    have h1 := mem_sortDesc hf
    have h2 := (List.mem_filter.mp h1).2
    simp only [Bool.and_eq_true, beq_iff_eq] at h2
    exact h2.2
  · intro hpos
    rw [hlab]
    exact ⟨countdown_head _ hpos, countdown_getLast _ hpos⟩

/-- C3 (witness): the ordering-and-labels theorem applied to a store with
one active page and two feedback rows. -/
theorem review_order_and_labels_witness :
    0 < (fetchFeedback [(⟨9, 1, "t", "", "s", true⟩ : FeedbackPageRow)]
        [(⟨0, "a", 9, 5⟩ : FeedbackRow), ⟨1, "b", 9, 7⟩] 9).length ∧
    (((renderFeedbackList (fetchFeedback [(⟨9, 1, "t", "", "s", true⟩ : FeedbackPageRow)]
        [(⟨0, "a", 9, 5⟩ : FeedbackRow), ⟨1, "b", 9, 7⟩] 9)).map Prod.fst).head?
      = some (fetchFeedback [(⟨9, 1, "t", "", "s", true⟩ : FeedbackPageRow)]
        [(⟨0, "a", 9, 5⟩ : FeedbackRow), ⟨1, "b", 9, 7⟩] 9).length ∧
    ((renderFeedbackList (fetchFeedback [(⟨9, 1, "t", "", "s", true⟩ : FeedbackPageRow)]
        [(⟨0, "a", 9, 5⟩ : FeedbackRow), ⟨1, "b", 9, 7⟩] 9)).map Prod.fst).getLast?
      = some 1) :=
  ⟨by decide,
    (review_order_and_labels [(⟨9, 1, "t", "", "s", true⟩ : FeedbackPageRow)]
      [(⟨0, "a", 9, 5⟩ : FeedbackRow), ⟨1, "b", 9, 7⟩] 9).2.2.2 (by decide)⟩

/-- C4: the public submission view resolves exactly the unique page row with
the route's slug and `is_active = true`; when no active page carries the
slug — wrong slug or deactivated page alike — the view is the same
not-found state; and the feedback read and insert policies hold exactly for
rows whose page is active, so an insert attempt against an inactive or
nonexistent page is denied and the feedback table is left unchanged. -/
theorem public_page_gating (pages : List FeedbackPageRow) (slg : String)
    (fb : List FeedbackRow) (row : FeedbackRow) :
    (∀ p, fetchPage pages slg = some p →
      p ∈ pages ∧ p.slug = slg ∧ p.is_active = true) ∧
    ((∀ p ∈ pages, p.slug = slg → p.is_active = false) →
      publicFeedbackView pages slg = .notFound) ∧
    ((∀ p ∈ pages, ¬(p.id = row.feedback_page_id ∧ p.is_active = true)) →
      insertFeedback pages fb row = .error ()) ∧
    (feedbackInsertAllowed pages row = true ↔
      ∃ p ∈ pages, p.id = row.feedback_page_id ∧ p.is_active = true) ∧
    (feedbackSelectAllowed pages row = true ↔
      ∃ p ∈ pages, p.id = row.feedback_page_id ∧ p.is_active = true) := by
  have hiff : feedbackInsertAllowed pages row = true ↔
      ∃ p ∈ pages, p.id = row.feedback_page_id ∧ p.is_active = true := by
    unfold feedbackInsertAllowed
    rw [List.any_eq_true]
    constructor
    · rintro ⟨p, hp, hpred⟩
      simp only [Bool.and_eq_true, beq_iff_eq] at hpred
      exact ⟨p, hp, hpred⟩
    · rintro ⟨p, hp, h1, h2⟩
      exact ⟨p, hp, by simp [h1, h2]⟩
  refine ⟨?_, ?_, ?_, hiff, hiff⟩
  · intro p hp
    exact fetchPage_eq_some hp
  · intro h
    unfold publicFeedbackView
    rw [fetchPage_eq_none h]
  · intro h
    unfold insertFeedback
    rw [if_neg ?_]
    intro hall
    obtain ⟨p, hp, h1, h2⟩ := hiff.mp hall
    exact h p hp ⟨h1, h2⟩

/-- C4 (witness): the gating theorem applied to a store with one active
page with slug "a": the page resolves under its slug, slug "b" renders
not-found, and a feedback insert against the nonexistent page id 2 is
rejected. -/
theorem public_page_gating_witness :
    ((⟨1, 1, "t", "", "a", true⟩ : FeedbackPageRow)
        ∈ [(⟨1, 1, "t", "", "a", true⟩ : FeedbackPageRow)] ∧
      (⟨1, 1, "t", "", "a", true⟩ : FeedbackPageRow).slug = "a" ∧
      (⟨1, 1, "t", "", "a", true⟩ : FeedbackPageRow).is_active = true) ∧
    publicFeedbackView [(⟨1, 1, "t", "", "a", true⟩ : FeedbackPageRow)] "b"
      = .notFound ∧
    insertFeedback [(⟨1, 1, "t", "", "a", true⟩ : FeedbackPageRow)] []
      (⟨5, "hi", 2, 0⟩ : FeedbackRow) = .error () :=
  ⟨(public_page_gating [(⟨1, 1, "t", "", "a", true⟩ : FeedbackPageRow)] "a"
      [] (⟨5, "hi", 2, 0⟩ : FeedbackRow)).1
      (⟨1, 1, "t", "", "a", true⟩ : FeedbackPageRow) (by decide),
    (public_page_gating [(⟨1, 1, "t", "", "a", true⟩ : FeedbackPageRow)] "b"
      [] (⟨5, "hi", 2, 0⟩ : FeedbackRow)).2.1 (by decide),
    (public_page_gating [(⟨1, 1, "t", "", "a", true⟩ : FeedbackPageRow)] "a"
      [] (⟨5, "hi", 2, 0⟩ : FeedbackRow)).2.2.1 (by decide)⟩

/-- C5: the feedback-review fetch returns a row only when it is the caller's
own row with the requested id; when no page with that id is owned by the
caller — nonexistent page and foreign page alike — the view is the same
error-redirect outcome, and a rendered page always belongs to the caller. -/
theorem review_ownership (pages : List FeedbackPageRow) (uid pid : Nat) :
    (∀ p, fetchOwnedPage pages uid pid = some p →
      p ∈ pages ∧ p.id = pid ∧ p.user_id = uid) ∧
    ((∀ p ∈ pages, ¬(p.id = pid ∧ p.user_id = uid)) →
      viewFeedbackView pages uid pid = .errorRedirect) ∧
    (∀ p, viewFeedbackView pages uid pid = .renders p → p.user_id = uid) := by
  refine ⟨?_, ?_, ?_⟩
  · intro p hp
    exact fetchOwnedPage_eq_some hp
  · intro h
    unfold viewFeedbackView
    rw [fetchOwnedPage_eq_none h]
  · intro p hp
    unfold viewFeedbackView at hp
    cases hf : fetchOwnedPage pages uid pid with
    | none => rw [hf] at hp; simp at hp
    | some q =>
      rw [hf] at hp
      simp only [ReviewView.renders.injEq] at hp
      subst hp
      exact (fetchOwnedPage_eq_some hf).2.2

/-- C5 (witness): the ownership theorem applied to a store with one page
(id 3, owner 1): owner 1 fetches it, caller 2 is redirected, and the
rendered page belongs to owner 1. -/
theorem review_ownership_witness :
    ((⟨3, 1, "t", "", "s", true⟩ : FeedbackPageRow)
        ∈ [(⟨3, 1, "t", "", "s", true⟩ : FeedbackPageRow)] ∧
      (⟨3, 1, "t", "", "s", true⟩ : FeedbackPageRow).id = 3 ∧
      (⟨3, 1, "t", "", "s", true⟩ : FeedbackPageRow).user_id = 1) ∧
    viewFeedbackView [(⟨3, 1, "t", "", "s", true⟩ : FeedbackPageRow)] 2 3
      = .errorRedirect ∧
    (⟨3, 1, "t", "", "s", true⟩ : FeedbackPageRow).user_id = 1 :=
  ⟨(review_ownership [(⟨3, 1, "t", "", "s", true⟩ : FeedbackPageRow)] 1 3).1
      (⟨3, 1, "t", "", "s", true⟩ : FeedbackPageRow) (by decide),
    (review_ownership [(⟨3, 1, "t", "", "s", true⟩ : FeedbackPageRow)] 2 3).2.1
      (by decide),
    (review_ownership [(⟨3, 1, "t", "", "s", true⟩ : FeedbackPageRow)] 1 3).2.2
      (⟨3, 1, "t", "", "s", true⟩ : FeedbackPageRow) (by decide)⟩

/-- C6: the store-wide UNIQUE constraint on `slug` is independent of the
owner: if the `feedback_pages` table has pairwise-distinct slugs then it
still does after any `createPage`, and a create whose form slug collides
with any existing row — whoever owns it — fails with the store-error toast
and leaves the table unchanged. -/
theorem slug_global_uniqueness (uid freshId : Nat)
    (pages : List FeedbackPageRow) (form : FormData) :
    (pages.Pairwise (fun a b => a.slug ≠ b.slug) →
      (createPage uid freshId pages form).2.1.Pairwise
        (fun a b => a.slug ≠ b.slug)) ∧
    ((∃ p ∈ pages, p.slug = form.slug) → jsTrim form.title ≠ "" →
      (createPage uid freshId pages form).1 = .storeError ∧
      (createPage uid freshId pages form).2.1 = pages) := by
  constructor
  · intro hpw
    unfold createPage
    by_cases hv : jsTrim form.title = ""
    · rw [if_pos hv]
      exact hpw
    · rw [if_neg hv]
      cases hi : insertPage (some uid) pages (newPageRow uid freshId form) with
      | error e =>
        exact hpw
      | ok ps =>
        show ps.Pairwise _
        obtain ⟨rfl, hne⟩ := insertPage_ok hi
        rw [List.pairwise_append]
        refine ⟨hpw, List.pairwise_singleton _ _, ?_⟩
        intro a ha b hb
        rw [List.mem_singleton] at hb
        subst hb
        exact hne a ha
  · intro hex hv
    unfold createPage
    rw [if_neg hv, insertPage_collision hex]
    exact ⟨rfl, rfl⟩

/-- C6 (witness): the uniqueness theorem applied to a table holding a page
of owner 2 with slug "x" and a create attempt by owner 1 re-using "x". -/
theorem slug_global_uniqueness_witness :
    (createPage 1 5 [(⟨4, 2, "other", "", "x", true⟩ : FeedbackPageRow)]
        (⟨"t", "", "x"⟩ : FormData)).2.1.Pairwise (fun a b => a.slug ≠ b.slug) ∧
    ((createPage 1 5 [(⟨4, 2, "other", "", "x", true⟩ : FeedbackPageRow)]
        (⟨"t", "", "x"⟩ : FormData)).1 = .storeError ∧
      (createPage 1 5 [(⟨4, 2, "other", "", "x", true⟩ : FeedbackPageRow)]
        (⟨"t", "", "x"⟩ : FormData)).2.1
      = [(⟨4, 2, "other", "", "x", true⟩ : FeedbackPageRow)]) :=
  ⟨(slug_global_uniqueness 1 5 [(⟨4, 2, "other", "", "x", true⟩ : FeedbackPageRow)]
      (⟨"t", "", "x"⟩ : FormData)).1 (by simp),
    (slug_global_uniqueness 1 5 [(⟨4, 2, "other", "", "x", true⟩ : FeedbackPageRow)]
      (⟨"t", "", "x"⟩ : FormData)).2
      ⟨(⟨4, 2, "other", "", "x", true⟩ : FeedbackPageRow), by decide, rfl⟩
      (by decide)⟩

/-- C7: both client-side validations run before any store request: a
whitespace-only title makes `createPage` return the validation toast with
the page table and the form state untouched, and a whitespace-only message
makes `submitFeedback` return the validation toast with the feedback table
and the message field untouched. -/
theorem validation_before_store (uid freshId createdAt : Nat)
    (pages : List FeedbackPageRow) (page : FeedbackPageRow)
    (fb : List FeedbackRow) (form : FormData) (msg : String) :
    (jsTrim form.title = "" →
      createPage uid freshId pages form = (.validationError, pages, form)) ∧
    (jsTrim msg = "" →
      submitFeedback pages page fb freshId createdAt msg
        = (.validationError, fb, msg)) := by
  constructor
  · intro hv
    unfold createPage
    rw [if_pos hv]
  · intro hv
    unfold submitFeedback
    rw [if_pos hv]

/-- C7 (witness): the validation theorem applied to the whitespace-only
title "   " and the whitespace-only message " ". -/
theorem validation_before_store_witness :
    jsTrim "   " = "" ∧
    createPage 1 0 [] (⟨"   ", "", ""⟩ : FormData)
      = (.validationError, [], (⟨"   ", "", ""⟩ : FormData)) ∧
    submitFeedback [] (⟨1, 1, "t", "", "a", true⟩ : FeedbackPageRow) [] 0 0 " "
      = (.validationError, [], " ") :=
  ⟨by decide,
    (validation_before_store 1 0 0 [] (⟨1, 1, "t", "", "a", true⟩ : FeedbackPageRow)
      [] (⟨"   ", "", ""⟩ : FormData) " ").1 (by decide),
    (validation_before_store 1 0 0 [] (⟨1, 1, "t", "", "a", true⟩ : FeedbackPageRow)
      [] (⟨"   ", "", ""⟩ : FormData) " ").2 (by decide)⟩

/-- C9: a successful `createPage` stores the raw form title unchanged — the
validation tests `formData.title.trim()` but the insert sends
`formData.title` itself, so a title with boundary whitespace is stored
untrimmed. -/
theorem raw_title_stored (uid freshId : Nat) (pages : List FeedbackPageRow)
    (form : FormData)
    (hs : (createPage uid freshId pages form).1 = .success) :
    newPageRow uid freshId form ∈ (createPage uid freshId pages form).2.1 ∧
    (newPageRow uid freshId form).title = form.title := by
  refine ⟨?_, rfl⟩
  unfold createPage at hs ⊢
  by_cases hv : jsTrim form.title = ""
  · rw [if_pos hv] at hs
    simp at hs
  · rw [if_neg hv] at hs ⊢
    cases hi : insertPage (some uid) pages (newPageRow uid freshId form) with
    | error e =>
      rw [hi] at hs
      simp at hs
    | ok ps =>
      show newPageRow uid freshId form ∈ ps
      obtain ⟨rfl, _⟩ := insertPage_ok hi
      exact List.mem_append_right _ (List.mem_singleton_self _)

/-- C9 (witness): creating a page titled " My Page " (non-empty after
trimming, but carrying boundary whitespace) succeeds and the stored row's
title is the raw string " My Page ". -/
theorem raw_title_stored_witness :
    (createPage 1 5 [] (⟨" My Page ", "", "my-page"⟩ : FormData)).1
      = .success ∧
    (newPageRow 1 5 (⟨" My Page ", "", "my-page"⟩ : FormData)
        ∈ (createPage 1 5 [] (⟨" My Page ", "", "my-page"⟩ : FormData)).2.1 ∧
      (newPageRow 1 5 (⟨" My Page ", "", "my-page"⟩ : FormData)).title
        = " My Page ") :=
  ⟨by decide, raw_title_stored 1 5 [] (⟨" My Page ", "", "my-page"⟩ : FormData)
    (by decide)⟩

/-- C10: the non-empty title "!!!" contains no alphanumeric character, its
derived slug is the empty string, and `createPage` on the form produced by
`handleTitleChange` nevertheless passes validation and performs the insert,
storing a row whose slug is empty — no client-side check rejects an empty
derived slug. -/
theorem empty_slug_insert_attempted :
    ("!!!" : String) ≠ "" ∧
    generateSlug "!!!" = "" ∧
    (handleTitleChange emptyForm "!!!").slug = "" ∧
    (createPage 1 0 [] (handleTitleChange emptyForm "!!!")).1 = .success ∧
    newPageRow 1 0 (handleTitleChange emptyForm "!!!")
      ∈ (createPage 1 0 [] (handleTitleChange emptyForm "!!!")).2.1 ∧
    (newPageRow 1 0 (handleTitleChange emptyForm "!!!")).slug = "" := by
  refine ⟨by decide, by decide, by decide, by decide, by decide, by decide⟩

end AnonWalls
